import Mathlib

/-!
Shallow embedding of the DocuChat document-chat component
(`doc-chat` client component, `pdfjs-worker` bootstrap module):
file-format sniffing, text extraction dispatch, knowledge-base
assembly, and the chat session state machine, together with proofs
of the specified properties.
-/

namespace DocuChat

/-- The four file formats the extraction dispatcher distinguishes. -/
inductive FileFormat
  | PDF
  | DOCX
  | TXT
  | Unknown
deriving DecidableEq, Repr

/-- The DOCX OOXML MIME string tested by `extractTextFromFile`. -/
def docxMime : String :=
  "application/vnd.openxmlformats-officedocument.wordprocessingml.document"

/-- Model of JavaScript `String.prototype.toLowerCase` (ASCII range, the
one exercised by file extensions). -/
def toLowerS (s : String) : String := ⟨s.data.map Char.toLower⟩

/-- Model of JavaScript `String.prototype.endsWith`. -/
def endsWithS (s suffix : String) : Bool := suffix.data.isSuffixOf s.data

/-- Model of JavaScript `String.prototype.trim`: strip leading and
trailing whitespace. -/
def trimS (s : String) : String :=
  ⟨((s.data.dropWhile Char.isWhitespace).reverse.dropWhile Char.isWhitespace).reverse⟩

/-- Format classification performed at the top of `extractTextFromFile`:
`name` is lowercased, each format matches if its MIME string equals the
declared type or the lowercased name ends with its extension, and the
dispatch tests `isPDF`, then `isDOCX`, then `isTXT`, falling through to
the unknown-type decode path. -/
def classify (name ftype : String) : FileFormat :=
  let lname := toLowerS name
  let isPDF := ftype == "application/pdf" || endsWithS lname ".pdf"
  let isDOCX := ftype == docxMime || endsWithS lname ".docx"
  let isTXT := ftype == "text/plain" || endsWithS lname ".txt"
  if isPDF then .PDF
  else if isDOCX then .DOCX
  else if isTXT then .TXT
  else .Unknown

/-- Number of positions of `s` at which `pat` occurs as a contiguous
substring (starting positions `0 ≤ i < s.length`). -/
def countOcc (pat : List Char) : List Char → Nat
  | [] => 0
  | c :: rest => (if pat.isPrefixOf (c :: rest) then 1 else 0) + countOcc pat rest

/-- `containsSub needle hay` models JavaScript `hay.includes(needle)`. -/
def containsSub (needle : List Char) : List Char → Bool
  | [] => needle.isEmpty
  | c :: rest => needle.isPrefixOf (c :: rest) || containsSub needle rest

/-- `joinSep sep l` models JavaScript `l.join(sep)`: the elements of `l`
in order with `sep` inserted between consecutive elements. -/
def joinSep (sep : String) : List String → String
  | [] => ""
  | [t] => t
  | t :: u :: rest => t ++ sep ++ joinSep sep (u :: rest)

/-- Character-list version of `joinSep`. -/
def joinSepL (sep : List Char) : List (List Char) → List Char
  | [] => []
  | [t] => t
  | t :: u :: rest => t ++ sep ++ joinSepL sep (u :: rest)

/-- The fixed knowledge-base separator used by `handleProcessDocuments`. -/
def kbSep : String := "\n\n---\n\n"

/-- The knowledge-base separator as a character list. -/
def kbSepL : List Char := ['\n', '\n', '-', '-', '-', '\n', '\n']

/-- Knowledge-base assembly: `texts.join("\n\n---\n\n")` in
`handleProcessDocuments`. -/
def assembleS (texts : List String) : String := joinSep kbSep texts

/-- Occurrence counting on strings. -/
def countOccS (pat s : String) : Nat := countOcc pat.toList s.toList

/-- Concatenation of a list of strings in order. -/
def concatAll : List String → String
  | [] => ""
  | s :: rest => s ++ concatAll rest

/-- The per-page PDF text accumulation loop of `extractTextFromFile`:
starting from `""`, for each page append the page's text fragments joined
with a single space and then a newline; finally trim. A page is modelled
as the list of its text-item `str` fragments. -/
def extractPdfText (pages : List (List String)) : String :=
  trimS (pages.foldl (fun text page => text ++ joinSep " " page ++ "\n") "")

/-- The spec's formulation of PDF extraction: concatenate, over pages in
order, the page's fragments joined with a single space followed by a
newline, and trim the result. -/
def pdfSpecText (pages : List (List String)) : String :=
  trimS (concatAll (pages.map fun page => joinSep " " page ++ "\n"))

/-- The substring of the error message that triggers the disabled-worker
retry in the PDF open path. -/
def workerMismatchNeedle : String := "does not match the Worker version"

/-- The PDF document open logic of `extractTextFromFile`: a first
`getDocument` call with the worker enabled; if it rejects with a message
containing `workerMismatchNeedle`, one retry with `disableWorker: true`;
any other rejection propagates. `openDoc b` is the outcome of a single
open attempt with `disableWorker = b`. -/
def openPdfWithRetry {α : Type} (openDoc : Bool → Except String α) : Except String α :=
  match openDoc false with
  | .ok pdf => .ok pdf
  | .error msg =>
      if containsSub workerMismatchNeedle.toList msg.toList then openDoc true
      else .error msg

/-- Chat message roles. -/
inductive Role
  | user
  | assistant
deriving DecidableEq, Repr

/-- A transcript entry: `{id, role, content}`. Ids are modelled as
naturals supplied by the caller (the code draws them from
`crypto.randomUUID()`). -/
structure ChatMessage where
  id : Nat
  role : Role
  content : String
deriving DecidableEq, Repr

/-- The fixed apology text appended when an answering request fails. -/
def apologyText : String :=
  "Sorry, something went wrong reaching Gemini. Please try again."

/-- The synthetic assistant welcome seeded after successful processing. -/
def welcomeText : String :=
  "Hi! Your documents are processed. Ask a question and I will answer based on them."

/-- The welcome message seeded by `handleProcessDocuments`. -/
def welcomeMessage (wid : Nat) : ChatMessage :=
  ⟨wid, .assistant, welcomeText⟩

/-- The React state of the `DocChat` component: selected file names,
assembled knowledge base, readiness latch, transcript, input box, and
the in-flight flag. -/
structure SessionState where
  files : List String
  knowledgeBase : String
  isReady : Bool
  messages : List ChatMessage
  input : String
  isSending : Bool
deriving DecidableEq, Repr

/-- Number of assistant messages in a transcript. -/
def assistantCount (ms : List ChatMessage) : Nat :=
  (ms.filter fun m => m.role == Role.assistant).length

/-- `Promise.all` over per-file extraction outcomes: succeeds with the
list of texts in file order iff every extraction succeeded, otherwise
rejects. -/
def sequenceE : List (Except String String) → Except String (List String)
  | [] => .ok []
  | .error e :: _ => .error e
  | .ok t :: rest =>
      match sequenceE rest with
      | .ok ts => .ok (t :: ts)
      | .error e => .error e

/-- `handleProcessDocuments`: no-op without selected files; otherwise the
extractions are joined (`results` is `files.map(extractTextFromFile)`);
if all succeed the joined knowledge base, the readiness flag and the
single-welcome transcript are written; on any rejection only an alert is
shown and no state field but the `finally`-cleared `isSending` is
touched. `wid` is the fresh id drawn for the welcome message. -/
def handleProcessDocuments (s : SessionState) (results : List (Except String String))
    (wid : Nat) : SessionState :=
  if s.files.isEmpty then s
  else
    match sequenceE results with
    | .ok texts =>
        { s with knowledgeBase := assembleS texts
                 isReady := true
                 messages := [welcomeMessage wid]
                 isSending := false }
    | .error _ => { s with isSending := false }

/-- `handleSend`: guarded on non-blank trimmed input, no reply in flight,
and readiness; when the guard passes, the trimmed user turn is appended
optimistically, the input box cleared, and the answering request issued
(`fetchResult` is its outcome: the reply string, or an error for a
non-2xx response or network rejection); on success the reply is
appended, on failure the fixed apology, and `isSending` is cleared in
either case. Returns the new state and whether a request was issued. -/
def handleSend (s : SessionState) (uid aid : Nat)
    (fetchResult : Except String String) : SessionState × Bool :=
  if trimS s.input == "" || s.isSending || !s.isReady then (s, false)
  else
    let userMsg : ChatMessage := ⟨uid, .user, trimS s.input⟩
    let mid := { s with messages := s.messages ++ [userMsg]
                        input := ""
                        isSending := true }
    match fetchResult with
    | .ok reply =>
        ({ mid with messages := mid.messages ++ [⟨aid, .assistant, reply⟩]
                    isSending := false }, true)
    | .error _ =>
        ({ mid with messages := mid.messages ++ [⟨aid, .assistant, apologyText⟩]
                    isSending := false }, true)

/-- Observable state of the `pdfjs-worker` bootstrap module: the
module-scoped `initialized` flag, the number of times the library import
has been performed, and the number of `workerSrc` configuration
writes. -/
structure WorkerState where
  initialized : Bool
  importCount : Nat
  configWrites : Nat
deriving DecidableEq, Repr

/-- Fresh module state: flag unset, no import, no configuration write. -/
def workerInit : WorkerState := ⟨false, 0, 0⟩

/-- The part of `ensurePdfjsWorker` after the `await import`: the import
has been performed, `workerSrc` is written, and only then is
`initialized` set (the write and the flag assignment run with no
suspension point between them). -/
def applyBootstrap (s : WorkerState) : WorkerState :=
  ⟨true, s.importCount + 1, s.configWrites + 1⟩

/-- A complete sequential run of `ensurePdfjsWorker` in a browser
context: return immediately when `initialized` is set, otherwise import,
configure, and set the flag. -/
def ensurePdfjsWorker (s : WorkerState) : WorkerState :=
  if s.initialized then s else applyBootstrap s

/-- Two overlapping calls to `ensurePdfjsWorker` that interleave at the
`await import` suspension point: both calls read `initialized` before
either has set it, then each resumes and applies the bootstrap body. -/
def ensureTwiceInterleaved (s : WorkerState) : WorkerState :=
  let aSkips := s.initialized
  let bSkips := s.initialized
  let s1 := if aSkips then s else applyBootstrap s
  if bSkips then s1 else applyBootstrap s1

/-! ### Helper lemmas -/

theorem sequenceE_error_of_mem (results : List (Except String String)) (e : String)
    (h : Except.error e ∈ results) : ∃ f, sequenceE results = .error f := by
  induction results with
  | nil => cases h
  | cons r rest ih =>
      cases r with
      | error f => exact ⟨f, rfl⟩
      | ok t =>
          have hmem : Except.error e ∈ rest := by
            cases h with
            | tail _ h => exact h
          obtain ⟨f, hf⟩ := ih hmem
          refine ⟨f, ?_⟩
          simp [sequenceE, hf]

theorem sequenceE_map_ok (ts : List String) :
    sequenceE (ts.map Except.ok) = .ok ts := by
  induction ts with
  | nil => rfl
  | cons t rest ih => simp [sequenceE, ih]

/-! ### C1: MIME/extension tie-break -/

/-- C1 counterexample: the claim says a file named with extension `.pdf`
but MIME type `text/plain` is classified TXT (MIME precedence); the code
classifies it PDF, because each format matches on MIME *or* extension
and the PDF test runs first. -/
theorem c1_counterexample :
    classify "doc.pdf" "text/plain" = FileFormat.PDF ∧
    classify "doc.pdf" "text/plain" ≠ FileFormat.TXT := by
  decide

/-- C1 (amended): classification tests PDF, then DOCX, then TXT, each
format matching if its MIME string or its extension is present; under a
MIME/extension contradiction the format earlier in that order wins, so
the MIME type prevails exactly when its format precedes (or equals) the
extension's: a PDF MIME type always wins, a DOCX MIME type wins unless
the name ends in `.pdf`, and a `text/plain` MIME type wins unless the
name ends in `.pdf` or `.docx`. -/
theorem c1_mime_extension_tiebreak (name ftype : String) :
    (ftype = "application/pdf" → classify name ftype = FileFormat.PDF) ∧
    (ftype = docxMime → endsWithS (toLowerS name) ".pdf" = false →
        classify name ftype = FileFormat.DOCX) ∧
    (ftype = "text/plain" → endsWithS (toLowerS name) ".pdf" = false →
        endsWithS (toLowerS name) ".docx" = false →
        classify name ftype = FileFormat.TXT) := by
  refine ⟨?_, ?_, ?_⟩
  · intro h; subst h; simp [classify]
  · intro h hpdf; subst h; simp [classify, docxMime, hpdf]
  · intro h hpdf hdocx; subst h; simp [classify, docxMime, hpdf, hdocx]

/-- C1 witness: `notes.txt` with MIME type `application/pdf` classifies
PDF, by the first tie-break branch. -/
theorem c1_witness : classify "notes.txt" "application/pdf" = FileFormat.PDF :=
  (c1_mime_extension_tiebreak "notes.txt" "application/pdf").1 rfl

/-! ### C9: case-insensitive extension fallback -/

/-- C9: when the declared MIME type is empty or generic (not one of the
three recognized MIME strings), classification is decided entirely by
case-insensitive extension matching on the lowercased file name, in the
order `.pdf`, `.docx`, `.txt`, with `Unknown` otherwise. -/
theorem c9_extension_fallback (name ftype : String)
    (hp : ftype ≠ "application/pdf") (hd : ftype ≠ docxMime)
    (ht : ftype ≠ "text/plain") :
    classify name ftype =
      (if endsWithS (toLowerS name) ".pdf" then FileFormat.PDF
       else if endsWithS (toLowerS name) ".docx" then FileFormat.DOCX
       else if endsWithS (toLowerS name) ".txt" then FileFormat.TXT
       else FileFormat.Unknown) := by
  simp [classify, hp, hd, ht]

/-- C9 witness: `report.PDF`, `a.DocX`, `b.TXT` with empty MIME type
classify PDF, DOCX, TXT respectively via the fallback. -/
theorem c9_witness :
    classify "report.PDF" "" = FileFormat.PDF ∧
    classify "a.DocX" "" = FileFormat.DOCX ∧
    classify "b.TXT" "" = FileFormat.TXT := by
  refine ⟨?_, ?_, ?_⟩
  · rw [c9_extension_fallback "report.PDF" "" (by decide) (by decide) (by decide)]
    decide
  · rw [c9_extension_fallback "a.DocX" "" (by decide) (by decide) (by decide)]
    decide
  · rw [c9_extension_fallback "b.TXT" "" (by decide) (by decide) (by decide)]
    decide

/-! ### C4: PDF open retry on worker-version mismatch -/

/-- C4: a successful first open is returned as-is; a first-open failure
whose message contains `"does not match the Worker version"` is retried
exactly once, with the worker disabled for that single call, and the
overall outcome is that retry's outcome (so it succeeds if the retry
succeeds); a failure without that substring propagates unchanged, with
no retry. -/
theorem c4_worker_retry {α : Type} (openDoc : Bool → Except String α) :
    (∀ pdf, openDoc false = .ok pdf → openPdfWithRetry openDoc = .ok pdf) ∧
    (∀ msg, openDoc false = .error msg →
        containsSub workerMismatchNeedle.toList msg.toList = true →
        openPdfWithRetry openDoc = openDoc true) ∧
    (∀ msg, openDoc false = .error msg →
        containsSub workerMismatchNeedle.toList msg.toList = false →
        openPdfWithRetry openDoc = .error msg) := by
  refine ⟨?_, ?_, ?_⟩
  · intro pdf h; simp [openPdfWithRetry, h]
  · intro msg h hsub
    simp only [String.toList] at hsub
    simp [openPdfWithRetry, h, hsub]
  · intro msg h hsub
    simp only [String.toList] at hsub
    simp [openPdfWithRetry, h, hsub]

/-- C4 witness: a first attempt failing with the mismatch message and a
retry returning the document yields the retry's document. -/
theorem c4_witness :
    openPdfWithRetry
        (fun b => if b then (.ok 7 : Except String Nat)
                  else .error "The API version 5.4.296 does not match the Worker version 5.0.0.")
      = .ok 7 := by
  have h := (c4_worker_retry
      (fun b => if b then (.ok 7 : Except String Nat)
                else .error "The API version 5.4.296 does not match the Worker version 5.0.0.")).2.1
      "The API version 5.4.296 does not match the Worker version 5.0.0." rfl (by decide)
  simpa using h

/-! ### C6: submission guard -/

/-- C6: if the trimmed input is empty (covering empty and whitespace-only
input), or a reply is in flight, or the session is not ready, submitting
is a no-op: the state is returned unchanged and no answering request is
issued; in particular no request is ever issued while readiness is
false. -/
theorem c6_send_guard (s : SessionState) (uid aid : Nat) (r : Except String String)
    (h : trimS s.input = "" ∨ s.isSending = true ∨ s.isReady = false) :
    handleSend s uid aid r = (s, false) := by
  rcases h with h | h | h <;> simp [handleSend, h]

/-- C6 witness: nonblank input but unready session: no append, no
request. -/
theorem c6_witness :
    handleSend ⟨[], "", false, [], "hello", false⟩ 0 1 (.ok "reply")
      = (⟨[], "", false, [], "hello", false⟩, false) :=
  c6_send_guard ⟨[], "", false, [], "hello", false⟩ 0 1 (.ok "reply")
    (Or.inr (Or.inr rfl))

/-! ### C7: apology on answering failure -/

/-- C7: when the guard passes and the answering request fails (non-2xx or
network rejection, both modelled as an `Except.error`), the transcript
becomes the old transcript plus the optimistic user turn and exactly one
new assistant message carrying the fixed apology text, the session
returns to idle (`isSending = false`), and the handler returns normally
(the failure is swallowed: `handleSend` is total and yields a plain
state). -/
theorem c7_apology_on_failure (s : SessionState) (uid aid : Nat) (e : String)
    (hin : (trimS s.input == "") = false) (hs : s.isSending = false)
    (hr : s.isReady = true) :
    (handleSend s uid aid (.error e)).1.messages
        = s.messages ++ [⟨uid, .user, trimS s.input⟩, ⟨aid, .assistant, apologyText⟩] ∧
    assistantCount (handleSend s uid aid (.error e)).1.messages
        = assistantCount s.messages + 1 ∧
    (handleSend s uid aid (.error e)).1.isSending = false ∧
    (handleSend s uid aid (.error e)).2 = true := by
  refine ⟨?_, ?_, ?_, ?_⟩ <;>
    simp [handleSend, hin, hs, hr, assistantCount, List.filter_append]

/-- C7 witness: a ready idle session with input `"hi"` and a failing
request gains the user turn and exactly one apology assistant message. -/
theorem c7_witness :
    (handleSend ⟨["f"], "kb", true, [⟨0, .assistant, welcomeText⟩], "hi", false⟩
        1 2 (.error "network down")).1.messages
      = [⟨0, .assistant, welcomeText⟩, ⟨1, .user, "hi"⟩, ⟨2, .assistant, apologyText⟩] ∧
    assistantCount (handleSend ⟨["f"], "kb", true, [⟨0, .assistant, welcomeText⟩], "hi", false⟩
        1 2 (.error "network down")).1.messages = 2 := by
  have h := c7_apology_on_failure
      ⟨["f"], "kb", true, [⟨0, .assistant, welcomeText⟩], "hi", false⟩
      1 2 "network down" (by decide) rfl rfl
  refine ⟨?_, ?_⟩
  · rw [h.1]; decide
  · rw [h.2.1]; decide

/-! ### C10: transcript replaced by the welcome message -/

/-- C10: a successful processing run (non-empty file selection, every
extraction succeeding) replaces the entire transcript with the single
synthetic welcome message — whatever was there before is discarded and
the transcript has length exactly 1. -/
theorem c10_transcript_replaced (s : SessionState) (ts : List String) (wid : Nat)
    (hf : s.files ≠ []) :
    (handleProcessDocuments s (ts.map Except.ok) wid).messages = [welcomeMessage wid] ∧
    (handleProcessDocuments s (ts.map Except.ok) wid).messages.length = 1 := by
  have hemp : s.files.isEmpty = false := by
    cases hfl : s.files with
    | nil => exact absurd hfl hf
    | cons a l => simp [hfl]
  refine ⟨?_, ?_⟩ <;> simp [handleProcessDocuments, hemp, sequenceE_map_ok]

/-- C10 witness: a session with a long prior transcript ends with exactly
the one welcome message after successful processing. -/
theorem c10_witness :
    (handleProcessDocuments
        ⟨["a.txt"], "old", true, [⟨0, .user, "x"⟩, ⟨1, .assistant, "y"⟩], "", false⟩
        (["text"].map Except.ok) 9).messages = [welcomeMessage 9] := by
  have h := c10_transcript_replaced
      ⟨["a.txt"], "old", true, [⟨0, .user, "x"⟩, ⟨1, .assistant, "y"⟩], "", false⟩
      ["text"] 9 (by decide)
  exact h.1

/-! ### C2: all-or-nothing document processing -/

/-- C2: if any one extraction in the batch rejects, `Promise.all` rejects
and the knowledge base, readiness flag and transcript are left exactly
as they were; only when every extraction succeeds (the results are all
`Except.ok`, in file order) and files are selected are the joined
knowledge base, the readiness flag and the single-welcome transcript
written. -/
theorem c2_all_or_nothing (s : SessionState) (results : List (Except String String))
    (wid : Nat) :
    ((∃ e, Except.error e ∈ results) →
        (handleProcessDocuments s results wid).knowledgeBase = s.knowledgeBase ∧
        (handleProcessDocuments s results wid).isReady = s.isReady ∧
        (handleProcessDocuments s results wid).messages = s.messages) ∧
    (∀ ts, results = ts.map Except.ok → s.files ≠ [] →
        (handleProcessDocuments s results wid).knowledgeBase = assembleS ts ∧
        (handleProcessDocuments s results wid).isReady = true ∧
        (handleProcessDocuments s results wid).messages = [welcomeMessage wid]) := by
  constructor
  · rintro ⟨e, he⟩
    obtain ⟨f, hf⟩ := sequenceE_error_of_mem results e he
    by_cases hemp : s.files.isEmpty
    · simp [handleProcessDocuments, hemp]
    · simp [handleProcessDocuments, hemp, hf]
  · intro ts hts hfne
    have hemp : s.files.isEmpty = false := by
      cases hfl : s.files with
      | nil => exact absurd hfl hfne
      | cons a l => simp [hfl]
    subst hts
    simp [handleProcessDocuments, hemp, sequenceE_map_ok]

/-- C2 witness: a batch with one failing extraction leaves the session
untouched, and the same batch with all successes writes the assembled
knowledge base. -/
theorem c2_witness :
    (handleProcessDocuments ⟨["a", "b"], "kb0", false, [], "", false⟩
        [.ok "t1", .error "boom"] 5).knowledgeBase = "kb0" ∧
    (handleProcessDocuments ⟨["a", "b"], "kb0", false, [], "", false⟩
        [.ok "t1", .error "boom"] 5).isReady = false ∧
    (handleProcessDocuments ⟨["a", "b"], "kb0", false, [], "", false⟩
        [.ok "t1", .error "boom"] 5).messages = [] ∧
    (handleProcessDocuments ⟨["a", "b"], "kb0", false, [], "", false⟩
        [.ok "t1", .ok "t2"] 5).knowledgeBase = assembleS ["t1", "t2"] := by
  have hfail := (c2_all_or_nothing ⟨["a", "b"], "kb0", false, [], "", false⟩
      [.ok "t1", .error "boom"] 5).1 ⟨"boom", by simp⟩
  have hok := (c2_all_or_nothing ⟨["a", "b"], "kb0", false, [], "", false⟩
      [.ok "t1", .ok "t2"] 5).2 ["t1", "t2"] rfl (by decide)
  exact ⟨hfail.1, hfail.2.1, hfail.2.2, hok.1⟩

/-! ### C8: worker bootstrap idempotence -/

/-- C8 counterexample: two calls to `ensurePdfjsWorker` interleaving at
the `await import` suspension point both pass the `initialized` check
and both apply the side effect: the import runs twice and `workerSrc` is
written twice, refuting "applied exactly once" under that
interleaving. -/
theorem c8_counterexample :
    (ensureTwiceInterleaved workerInit).importCount = 2 ∧
    (ensureTwiceInterleaved workerInit).configWrites = 2 := by
  decide

/-- C8 (amended): the bootstrap is sequentially idempotent — a call
finding the flag set returns immediately without importing or
configuring, running it twice in sequence equals running it once, a call
finding the flag unset applies the import and the configuration write
exactly once and only then sets the flag, and from a fresh module state
exactly one import and one write occur; but two calls interleaving at
the import suspension point apply the side effect twice
(`c8_counterexample`). -/
theorem c8_sequential_idempotent (s : WorkerState) :
    (s.initialized = true → ensurePdfjsWorker s = s) ∧
    ensurePdfjsWorker (ensurePdfjsWorker s) = ensurePdfjsWorker s ∧
    (s.initialized = false →
        ensurePdfjsWorker s = ⟨true, s.importCount + 1, s.configWrites + 1⟩) ∧
    (ensurePdfjsWorker workerInit).importCount = 1 ∧
    (ensurePdfjsWorker workerInit).configWrites = 1 := by
  refine ⟨?_, ?_, ?_, by decide, by decide⟩
  · intro h; simp [ensurePdfjsWorker, h]
  · by_cases h : s.initialized <;> simp [ensurePdfjsWorker, applyBootstrap, h]
  · intro h; simp [ensurePdfjsWorker, applyBootstrap, h]

/-- C8 witness: from the fresh module state, a second sequential call
returns the state of the first unchanged, and the first call applies the
effect exactly once. -/
theorem c8_witness :
    ensurePdfjsWorker (ensurePdfjsWorker workerInit) = ensurePdfjsWorker workerInit ∧
    ensurePdfjsWorker workerInit = ⟨true, 1, 1⟩ :=
  ⟨(c8_sequential_idempotent workerInit).2.1,
   (c8_sequential_idempotent workerInit).2.2.1 rfl⟩

/-! ### C3: PDF page concatenation -/

theorem foldl_pages_concatAll (l : List (List String)) (a : String) :
    l.foldl (fun text page => text ++ joinSep " " page ++ "\n") a
      = a ++ concatAll (l.map fun page => joinSep " " page ++ "\n") := by
  induction l generalizing a with
  | nil => simp [concatAll, String.append_empty]
  | cons p rest ih =>
      rw [List.foldl_cons, ih]
      simp only [List.map_cons, concatAll, String.append_assoc]

/-- C3: PDF extraction equals the spec's formulation — the concatenation
over pages in order of (the page's text fragments joined with a single
space, followed by a newline), with the result trimmed — and a zero-page
PDF yields the empty string. -/
theorem c3_pdf_page_concatenation (pages : List (List String)) :
    extractPdfText pages = pdfSpecText pages ∧ extractPdfText [] = "" := by
  constructor
  · unfold extractPdfText pdfSpecText
    rw [foldl_pages_concatAll]
    cases hl : concatAll (pages.map fun page => joinSep " " page ++ "\n") with
    | mk data => rfl
  · decide

/-! ### C5: separator counting -/

theorem countOcc_append_of_head_ne (p : Char) (ps t u : List Char)
    (hp : ∀ c ∈ t, c ≠ p) :
    countOcc (p :: ps) (t ++ u) = countOcc (p :: ps) u := by
  induction t with
  | nil => rfl
  | cons c t ih =>
      have hc : (p == c) = false := by
        have := hp c (List.mem_cons_self ..)
        simp [beq_eq_false_iff_ne]
        exact fun hpc => this hpc.symm
      have ht : ∀ d ∈ t, d ≠ p := fun d hd => hp d (List.mem_cons_of_mem _ hd)
      simp only [List.cons_append, countOcc, List.isPrefixOf, hc, Bool.false_and]
      simp [ih ht]

theorem countOcc_kbSepL_prepend (x : List Char)
    (hx : x = [] ∨ ∃ c xs, x = c :: xs ∧ c ≠ '\n' ∧ c ≠ '-') :
    countOcc kbSepL (kbSepL ++ x) = 1 + countOcc kbSepL x := by
  rcases hx with rfl | ⟨c, xs, rfl, hc1, hc2⟩
  · decide
  · have h5 : ('-' == c) = false := by
      simp [beq_eq_false_iff_ne]
      exact fun h => hc2 h.symm
    have h6 : ('\n' == c) = false := by
      simp [beq_eq_false_iff_ne]
      exact fun h => hc1 h.symm
    simp only [kbSepL, List.cons_append, List.nil_append, countOcc,
      List.isPrefixOf, h5, h6]
    simp

theorem joinSepL_cons_head (sep : List Char) (c : Char) (cs : List Char)
    (ts : List (List Char)) :
    ∃ tail, joinSepL sep ((c :: cs) :: ts) = c :: tail := by
  cases ts with
  | nil => exact ⟨cs, rfl⟩
  | cons u ts => exact ⟨cs ++ sep ++ joinSepL sep (u :: ts), by simp [joinSepL]⟩

theorem countOcc_joinSepL (L : List (List Char))
    (h : ∀ t ∈ L, t ≠ [] ∧ ∀ c ∈ t, c ≠ '\n' ∧ c ≠ '-') :
    L ≠ [] → countOcc kbSepL (joinSepL kbSepL L) = L.length - 1 := by
  induction L with
  | nil => intro h0; exact absurd rfl h0
  | cons t rest ih =>
      intro _
      obtain ⟨ht, hchars⟩ := h t (List.mem_cons_self ..)
      have htn : ∀ c ∈ t, c ≠ '\n' := fun c hc => (hchars c hc).1
      cases rest with
      | nil =>
          have h0 : countOcc kbSepL (t ++ []) = countOcc kbSepL [] :=
            countOcc_append_of_head_ne '\n' ['\n', '-', '-', '-', '\n', '\n'] t [] htn
          rw [List.append_nil] at h0
          simpa [joinSepL] using h0
      | cons u ts =>
          obtain ⟨hu, huchars⟩ := h u (List.mem_cons_of_mem _ (List.mem_cons_self ..))
          obtain ⟨c, cs, rfl⟩ : ∃ c cs, u = c :: cs := by
            cases u with
            | nil => exact absurd rfl hu
            | cons c cs => exact ⟨c, cs, rfl⟩
          obtain ⟨tail, htail⟩ := joinSepL_cons_head kbSepL c cs ts
          have hrec : countOcc kbSepL (joinSepL kbSepL ((c :: cs) :: ts)) = ts.length := by
            have := ih (fun t' ht' => h t' (List.mem_cons_of_mem _ ht'))
              (List.cons_ne_nil _ _)
            simpa using this
          have hstep : countOcc kbSepL (kbSepL ++ joinSepL kbSepL ((c :: cs) :: ts))
              = 1 + countOcc kbSepL (joinSepL kbSepL ((c :: cs) :: ts)) := by
            apply countOcc_kbSepL_prepend
            refine Or.inr ⟨c, tail, htail, ?_, ?_⟩
            · exact (huchars c (List.mem_cons_self ..)).1
            · exact (huchars c (List.mem_cons_self ..)).2
          have hskip : countOcc kbSepL (t ++ (kbSepL ++ joinSepL kbSepL ((c :: cs) :: ts)))
              = countOcc kbSepL (kbSepL ++ joinSepL kbSepL ((c :: cs) :: ts)) :=
            countOcc_append_of_head_ne '\n' ['\n', '-', '-', '-', '\n', '\n'] t _ htn
          have hjoin : joinSepL kbSepL (t :: (c :: cs) :: ts)
              = t ++ (kbSepL ++ joinSepL kbSepL ((c :: cs) :: ts)) := by
            simp [joinSepL]
          rw [hjoin, hskip, hstep, hrec]
          simp
          omega

theorem toList_append (a b : String) : (a ++ b).toList = a.toList ++ b.toList :=
  String.data_append a b

theorem toList_joinSep (sep : String) (l : List String) :
    (joinSep sep l).toList = joinSepL sep.toList (l.map String.toList) := by
  induction l with
  | nil => rfl
  | cons t rest ih =>
      cases rest with
      | nil => rfl
      | cons u ts =>
          calc (joinSep sep (t :: u :: ts)).toList
              = (t ++ sep ++ joinSep sep (u :: ts)).toList := rfl
            _ = t.toList ++ sep.toList ++ (joinSep sep (u :: ts)).toList := by
                  rw [toList_append, toList_append]
            _ = t.toList ++ sep.toList
                  ++ joinSepL sep.toList ((u :: ts).map String.toList) := by rw [ih]
            _ = joinSepL sep.toList ((t :: u :: ts).map String.toList) := rfl

/-- C5 counterexample: the claim's "exactly N−1 separator occurrences"
fails when an extracted text itself contains the separator: a single
text containing `"\n\n---\n\n"` assembles to a string with 1 occurrence
instead of N−1 = 0. -/
theorem c5_counterexample :
    countOccS kbSep (assembleS ["a\n\n---\n\nb"]) ≠ ["a\n\n---\n\nb"].length - 1 := by
  decide

/-- C5 (amended): `assemble` joins the texts in input order with the
fixed separator and `assemble([]) = ""`; the assembled string contains
exactly N−1 occurrences of the separator provided each text is nonempty
and contains neither a newline nor a dash character (texts containing
separator fragments can create additional occurrences). -/
theorem c5_separator_count (texts : List String)
    (h : ∀ t ∈ texts, t.toList ≠ [] ∧ ∀ c ∈ t.toList, c ≠ '\n' ∧ c ≠ '-') :
    assembleS [] = "" ∧
    (texts ≠ [] → countOccS kbSep (assembleS texts) = texts.length - 1) := by
  refine ⟨rfl, ?_⟩
  intro hne
  have hsep : kbSep.toList = kbSepL := by decide
  unfold countOccS assembleS
  rw [toList_joinSep, hsep]
  have hlift : ∀ t' ∈ texts.map String.toList,
      t' ≠ [] ∧ ∀ c ∈ t', c ≠ '\n' ∧ c ≠ '-' := by
    intro t' ht'
    obtain ⟨t, htmem, rfl⟩ := List.mem_map.mp ht'
    exact h t htmem
  have hlen : (texts.map String.toList).length = texts.length := List.length_map _ _
  have hne' : texts.map String.toList ≠ [] := by
    cases texts with
    | nil => exact absurd rfl hne
    | cons a l => simp
  rw [countOcc_joinSepL (texts.map String.toList) hlift hne', hlen]

/-- C5 witness: three separator-free texts assemble with exactly two
separator occurrences, and the empty list assembles to the empty
string. -/
theorem c5_witness :
    assembleS [] = "" ∧ countOccS kbSep (assembleS ["a", "b", "c"]) = 2 := by
  have h := c5_separator_count ["a", "b", "c"] (by decide)
  exact ⟨h.1, h.2 (by decide)⟩

end DocuChat
